import Mathlib

set_option maxRecDepth 16000
set_option maxHeartbeats 1000000

/-!
Verification development for the multi-source zap-receipt query and matching
engine of `src/lib/zap.ts` (functions `parseZapReceipt`,
`fetchZapReceiptForInvoice`, `fetchZapReceiptsForInvoices`).

The Receipt Matcher (`parseZapReceipt`) is embedded as a pure function over a
JSON model.  The Multi-Peer Query Coordinator (`fetchZapReceiptForInvoice`) is
embedded as a deterministic discrete-time simulation of the JavaScript
promise/timer machinery: each configured relay is described by a script of
timed network occurrences (connection outcome, event deliveries, end-of-stored-
events), and the simulator replays the handlers of the source in time order.
One time unit stands for one second of the source (the source uses 5000 ms /
10000 ms timeouts; the embedding uses 5 / 10 time units).
-/

/-- JSON value model for `JSON.parse` results.  Numbers are modelled as
integers: every numeric literal relevant to the matcher (the kind constant
9734) is integral, and no claim depends on non-integral numbers. -/
inductive Json where
  | null : Json
  | bool : Bool → Json
  | num : Int → Json
  | str : String → Json
  | arr : List Json → Json
  | obj : List (String × Json) → Json

/-- JavaScript property access `v.key` for parsed JSON values: a lookup on an
object (later duplicate keys win, as in `JSON.parse`), `undefined` (here:
`none`) on every non-object. -/
def Json.getField : Json → String → Option Json
  | .obj fields, key => fields.foldl (fun acc p => if p.1 = key then some p.2 else acc) none
  | _, _ => none

/-- JavaScript strict equality `v === 9734` for a possibly-`undefined` JSON
value: true exactly on the number 9734. -/
def isKind9734 : Option Json → Bool
  | some (Json.num n) => n == 9734
  | _ => false

/-- JavaScript falsiness of a JSON value (`null`, `false`, `0`, `""`). -/
def jsFalsy : Json → Bool
  | .null => true
  | .bool b => !b
  | .num n => n == 0
  | .str s => s == ""
  | _ => false

/-- JavaScript falsiness of a possibly-`undefined` JSON value. -/
def jsFalsyO : Option Json → Bool
  | none => true
  | some v => jsFalsy v

/-- `v || ""` on a possibly-`undefined` JSON value (source line
`const comment = zapRequest.content || ''`). -/
def jsOrEmpty (o : Option Json) : Json :=
  match o with
  | none => Json.str ""
  | some v => if jsFalsy v then Json.str "" else v

/-- Skip JSON whitespace. -/
def skipWs : List Char → List Char
  | [] => []
  | c :: cs => if c = ' ' ∨ c = '\n' ∨ c = '\t' ∨ c = '\r' then skipWs cs else c :: cs

/-- Decode one JSON string-escape character. -/
def escChar (c : Char) : Option Char :=
  if c = '"' then some '"'
  else if c = '\\' then some '\\'
  else if c = '/' then some '/'
  else if c = 'n' then some '\n'
  else if c = 't' then some '\t'
  else if c = 'r' then some '\r'
  else none

/-- Parse the body of a JSON string literal (opening quote already consumed);
returns the decoded characters and the rest of the input. -/
def parseStringBody : List Char → Option (List Char × List Char)
  | [] => none
  | c :: cs =>
    if c = '"' then some ([], cs)
    else if c = '\\' then
      match cs with
      | [] => none
      | d :: cs2 =>
        match escChar d with
        | none => none
        | some e =>
          match parseStringBody cs2 with
          | none => none
          | some (body, rest) => some (e :: body, rest)
    else
      match parseStringBody cs with
      | none => none
      | some (body, rest) => some (c :: body, rest)

/-- Parse a non-empty run of decimal digits. -/
def parseDigits : List Char → Option (Nat × List Char)
  | [] => none
  | c :: cs =>
    if c.isDigit then
      let rest := cs.takeWhile Char.isDigit
      let digits := c :: rest
      some (digits.foldl (fun a d => a * 10 + (d.toNat - 48)) 0, cs.dropWhile Char.isDigit)
    else none

mutual

/-- Fueled recursive-descent parser for one JSON value. -/
def parseVal : Nat → List Char → Option (Json × List Char)
  | 0, _ => none
  | fuel + 1, input =>
    match skipWs input with
    | [] => none
    | c :: cs =>
      if c = '"' then
        match parseStringBody cs with
        | none => none
        | some (body, rest) => some (Json.str (String.mk body), rest)
      else if c = Char.ofNat 123 then
        parseMembers fuel (skipWs cs) true
      else if c = '[' then
        parseElems fuel (skipWs cs) true
      else if c = 't' then
        match cs with
        | 'r' :: 'u' :: 'e' :: rest => some (Json.bool true, rest)
        | _ => none
      else if c = 'f' then
        match cs with
        | 'a' :: 'l' :: 's' :: 'e' :: rest => some (Json.bool false, rest)
        | _ => none
      else if c = 'n' then
        match cs with
        | 'u' :: 'l' :: 'l' :: rest => some (Json.null, rest)
        | _ => none
      else if c = '-' then
        match parseDigits cs with
        | none => none
        | some (n, rest) => some (Json.num (-(n : Int)), rest)
      else
        match parseDigits (c :: cs) with
        | none => none
        | some (n, rest) => some (Json.num (n : Int), rest)

/-- Fueled parser for object members; `first` is true before any member has
been parsed (so a closing brace makes the empty object). -/
def parseMembers : Nat → List Char → Bool → Option (Json × List Char)
  | 0, _, _ => none
  | fuel + 1, input, first =>
    match input with
    | [] => none
    | c :: cs =>
      if first ∧ c = Char.ofNat 125 then some (Json.obj [], cs)
      else
        match parseMemberList fuel (c :: cs) with
        | none => none
        | some (fields, rest) => some (Json.obj fields, rest)

/-- Fueled parser for a non-empty comma-separated member list, consuming the
closing brace. -/
def parseMemberList : Nat → List Char → Option (List (String × Json) × List Char)
  | 0, _ => none
  | fuel + 1, input =>
    match skipWs input with
    | '"' :: cs =>
      match parseStringBody cs with
      | none => none
      | some (keyChars, afterKey) =>
        match skipWs afterKey with
        | ':' :: afterColon =>
          match parseVal fuel afterColon with
          | none => none
          | some (v, afterVal) =>
            match skipWs afterVal with
            | ',' :: afterComma =>
              match parseMemberList fuel afterComma with
              | none => none
              | some (fields, rest) => some ((String.mk keyChars, v) :: fields, rest)
            | d :: afterBrace =>
              if d = Char.ofNat 125 then some ([(String.mk keyChars, v)], afterBrace)
              else none
            | [] => none
        | _ => none
    | _ => none

/-- Fueled parser for array elements; `first` is true before any element has
been parsed (so a closing bracket makes the empty array). -/
def parseElems : Nat → List Char → Bool → Option (Json × List Char)
  | 0, _, _ => none
  | fuel + 1, input, first =>
    match input with
    | [] => none
    | c :: cs =>
      if first ∧ c = ']' then some (Json.arr [], cs)
      else
        match parseElemList fuel (c :: cs) with
        | none => none
        | some (elems, rest) => some (Json.arr elems, rest)

/-- Fueled parser for a non-empty comma-separated element list, consuming the
closing bracket. -/
def parseElemList : Nat → List Char → Option (List Json × List Char)
  | 0, _ => none
  | fuel + 1, input =>
    match parseVal fuel input with
    | none => none
    | some (v, afterVal) =>
      match skipWs afterVal with
      | ',' :: afterComma =>
        match parseElemList fuel afterComma with
        | none => none
        | some (elems, rest) => some (v :: elems, rest)
      | ']' :: afterBracket => some ([v], afterBracket)
      | _ => none

end

/-- `JSON.parse` model: parse a complete JSON document, requiring that only
whitespace remains.  `none` models a thrown `SyntaxError`. -/
def parseJson (s : String) : Option Json :=
  match parseVal (2 * s.length + 2) s.data with
  | none => none
  | some (v, rest) => if skipWs rest = [] then some v else none

/-- A candidate Nostr event as used by `parseZapReceipt`: the function only
reads `event.tags`, an optional array of string arrays (the source annotates
each tag as `t: string[]`). -/
structure NostrEvent where
  tags : Option (List (List String))

/-- `event.tags?.find((t) => t[0] === key)?.[1]`: the value (index 1) of the
first tag whose key (index 0) equals `key`. -/
def firstTagValue (e : NostrEvent) (key : String) : Option String :=
  ((e.tags.getD []).find? (fun t => t.get? 0 == some key)).bind (fun t => t.get? 1)

/-- The record returned by `parseZapReceipt` on success.  `senderPubkey` and
`comment` come out of the parsed JSON description and are kept as JSON values
(the source is untyped there); `recipientPubkey` and `eventId` come out of
string tags. -/
structure ZapReceiptInfo where
  senderPubkey : Json
  recipientPubkey : String
  eventId : Option String
  comment : Json

/-- Embedding of `parseZapReceipt(event, invoice)` (src/lib/zap.ts:768-850).
Each early `return null` of the source is a `none` here; the thrown
`TypeError` of `zapRequest.kind` when `JSON.parse` yields `null` is caught by
the source's outer try/catch and also produces `null`, which `Json.getField`
models by returning `none` on non-objects. -/
def parseZapReceipt (event : NostrEvent) (invoice : String) : Option ZapReceiptInfo :=
  match firstTagValue event "bolt11" with
  | none => none
  | some bolt11 =>
    if bolt11 = "" then none
    else if bolt11 ≠ invoice then none
    else
      match firstTagValue event "description" with
      | none => none
      | some description =>
        if description = "" then none
        else
          match parseJson description with
          | none => none
          | some zapRequest =>
            if !isKind9734 (zapRequest.getField "kind") then none
            else
              match firstTagValue event "p" with
              | none => none
              | some recipientPubkey =>
                if recipientPubkey = "" then none
                else
                  let senderPubkey := zapRequest.getField "pubkey"
                  if jsFalsyO senderPubkey then none
                  else
                    some { senderPubkey := senderPubkey.getD Json.null,
                           recipientPubkey := recipientPubkey,
                           eventId := firstTagValue event "e",
                           comment := jsOrEmpty (zapRequest.getField "content") }

/-- The literal fingerprint of the spec's example scenario. -/
def fp0 : String := "lnbc100n1p..."

/-- The literal recipient of the spec's example scenario. -/
def recipient0 : String := "abc123..."

/-- The literal description value of the relay-1 fixture record. -/
def descFixture : String :=
  "\x7b\"kind\":9734,\"pubkey\":\"sender1\",\"tags\":[[\"p\",\"abc123...\"]],\"content\":\"gm\"\x7d"

/-- The relay-1 fixture record of the spec's example scenario. -/
def eventRelay1 : NostrEvent :=
  { tags := some [["bolt11", fp0], ["description", descFixture], ["p", recipient0]] }

/-- The MatchResult the spec expects for the relay-1 fixture. -/
def resultRelay1 : ZapReceiptInfo :=
  { senderPubkey := Json.str "sender1",
    recipientPubkey := recipient0,
    eventId := none,
    comment := Json.str "gm" }

example : parseJson descFixture =
    some (Json.obj [("kind", Json.num 9734), ("pubkey", Json.str "sender1"),
      ("tags", Json.arr [Json.arr [Json.str "p", Json.str "abc123..."]]),
      ("content", Json.str "gm")]) := rfl

example : parseZapReceipt eventRelay1 fp0 = some resultRelay1 := rfl

/-- Per-peer timeout of the source (`setTimeout(..., 5000)`), in time units of
one second. -/
def perPeerTimeout : Nat := 5

/-- Overall timeout of the source (`setTimeout(..., 10000)`), in time units of
one second. -/
def overallTimeout : Nat := 10

/-- The default relay list of `fetchZapReceiptForInvoice`. -/
def defaultRelayUrls : List String :=
  ["wss://relay.primal.net", "wss://relay.damus.io", "wss://relay.nostr.band", "wss://nos.lol"]

/-- The subscription filter built by each branch
(`{ kinds: [9735], '#p': [recipientPubkey], limit: 50 }`).  `pTag = none`
models the JavaScript value `[undefined]` that arises when the recipient
argument was not supplied. -/
structure ZapFilter where
  kinds : List Nat
  pTag : Option String
  limit : Nat
deriving DecidableEq

/-- `mkZapFilter recipient` is the filter a branch subscribes with. -/
def mkZapFilter (recipient : Option String) : ZapFilter :=
  { kinds := [9735], pTag := recipient, limit := 50 }

/-- Behaviour of one relay's `connect()` call: resolve at a time, reject at a
time, or hang forever. -/
inductive ConnBehavior where
  | ok : Nat → ConnBehavior
  | fail : Nat → ConnBehavior
  | never : ConnBehavior

/-- Environment script for one configured relay: its connection behaviour, the
events it delivers (absolute times, delivered only while the subscription is
open), and the time of its EOSE signal, if any. -/
structure RelayScript where
  conn : ConnBehavior
  events : List (Nat × NostrEvent)
  eose : Option Nat

/-- Mutable state of one relay branch of `fetchZapReceiptForInvoice`:
whether `relay.connect()` has succeeded (the source never closes the
connection in this function), whether the subscription is open, whether the
branch's inner promise (or its catch handler) has settled, and the filter it
subscribed with. -/
structure BranchState where
  connOpen : Bool
  subOpen : Bool
  resolved : Bool
  filter : Option ZapFilter

/-- Initial branch state. -/
def initBranch : BranchState :=
  { connOpen := false, subOpen := false, resolved := false, filter := none }

/-- State shared across branches: the `zapReceipt` variable, the
`completedRelays` counter, and the outer promise's resolution (time and
value), if it has resolved. -/
structure Global where
  zapReceipt : Option ZapReceiptInfo
  completedRelays : Nat
  overall : Option (Nat × Option ZapReceiptInfo)

/-- Initial shared state. -/
def initGlobal : Global :=
  { zapReceipt := none, completedRelays := 0, overall := none }

/-- The `onevent` handler for one delivered event: only reachable while the
subscription is open; guarded by `if (!zapReceipt)`; on a parse success it
stores the receipt, closes the subscription and resolves the branch. -/
def deliverOne (invoice : String) (p : Global × BranchState) (e : NostrEvent) :
    Global × BranchState :=
  if p.2.subOpen then
    match p.1.zapReceipt with
    | some _ => p
    | none =>
      match parseZapReceipt e invoice with
      | some r =>
        ({ p.1 with zapReceipt := some r },
         { p.2 with subOpen := false, resolved := true })
      | none => p
  else p

/-- Connection handling at time `t`: on `connect()` success the branch
subscribes immediately (opening the subscription and recording its filter); on
failure the `catch` settles the branch's promise. -/
def connectStep (recipient : Option String) (t : Nat) (sc : RelayScript)
    (p : Global × BranchState) : Global × BranchState :=
  match sc.conn with
  | ConnBehavior.ok t0 =>
    if t = t0 then
      (p.1, { p.2 with connOpen := true, subOpen := true,
                       filter := some (mkZapFilter recipient) })
    else p
  | ConnBehavior.fail t0 =>
    if t = t0 then (p.1, { p.2 with resolved := true }) else p
  | ConnBehavior.never => p

/-- The `oneose` handler at time `t`: only reachable while the subscription is
open; closes the subscription, increments `completedRelays`, and resolves the
branch's promise only when every relay has completed or a receipt was found. -/
def eoseStep (total : Nat) (t : Nat) (sc : RelayScript) (p : Global × BranchState) :
    Global × BranchState :=
  match sc.eose with
  | some te =>
    if t = te ∧ p.2.subOpen then
      if decide (total ≤ p.1.completedRelays + 1) || p.1.zapReceipt.isSome then
        ({ p.1 with completedRelays := p.1.completedRelays + 1 },
         { p.2 with subOpen := false, resolved := true })
      else
        ({ p.1 with completedRelays := p.1.completedRelays + 1 },
         { p.2 with subOpen := false })
    else p
  | none => p

/-- The branch's 5-second `setTimeout` (armed when the connection succeeded):
closes the subscription (idempotently) and resolves the branch's promise. -/
def timeoutStep (t : Nat) (sc : RelayScript) (p : Global × BranchState) :
    Global × BranchState :=
  match sc.conn with
  | ConnBehavior.ok t0 =>
    if t = t0 + perPeerTimeout then
      (p.1, { p.2 with subOpen := false, resolved := true })
    else p
  | _ => p

/-- All handlers of one branch due at time `t`, in source scheduling order:
connection, event deliveries, EOSE, branch timeout. -/
def branchStep (invoice : String) (recipient : Option String) (total : Nat) (t : Nat)
    (g : Global) (sc : RelayScript) (b : BranchState) : Global × BranchState :=
  timeoutStep t sc (eoseStep total t sc
    ((sc.events.filter (fun ev => ev.1 = t)).foldl (fun q ev => deliverOne invoice q ev.2)
      (connectStep recipient t sc (g, b))))

/-- Run every branch's handlers due at time `t`, left to right (JavaScript is
single-threaded; within one time unit the handlers run in relay order). -/
def runBranches (invoice : String) (recipient : Option String) (total : Nat) (t : Nat) :
    List (RelayScript × BranchState) → Global → Global × List BranchState
  | [], g => (g, [])
  | (sc, b) :: rest, g =>
    ((runBranches invoice recipient total t rest
        (branchStep invoice recipient total t g sc b).1).1,
     (branchStep invoice recipient total t g sc b).2 ::
       (runBranches invoice recipient total t rest
         (branchStep invoice recipient total t g sc b).1).2)

/-- The `Promise.all` continuation: once every branch promise has settled it
resolves the outer promise with the current `zapReceipt`. -/
def promiseAllStep (t : Nat) (g : Global) (bs : List BranchState) : Global :=
  if g.overall.isNone && bs.all (fun b => b.resolved) then
    { g with overall := some (t, g.zapReceipt) } else g

/-- The overall 10-second timer: at `overallTimeout` it resolves the outer
promise with `null` only if no receipt was stored and the promise is still
pending. -/
def overallTimeoutStep (t : Nat) (g : Global) : Global :=
  if decide (t = overallTimeout) && g.zapReceipt.isNone && g.overall.isNone then
    { g with overall := some (t, none) } else g

/-- After the branch handlers of a time unit: the `Promise.all` continuation,
then the overall timer. -/
def stepResolve (t : Nat) (r : Global × List BranchState) : Global × List BranchState :=
  (overallTimeoutStep t (promiseAllStep t r.1 r.2), r.2)

/-- One time unit of the simulation: run each branch's due handlers, then the
`Promise.all` continuation, then the overall timer. -/
def stepTime (invoice : String) (recipient : Option String) (scripts : List RelayScript)
    (t : Nat) (s : Global × List BranchState) : Global × List BranchState :=
  stepResolve t (runBranches invoice recipient scripts.length t (scripts.zip s.2) s.1)

/-- Simulate `fetchZapReceiptForInvoice invoice recipient scripts` for the
first `n` time units (t = 0, …, n-1). -/
def simUpTo (invoice : String) (recipient : Option String) (scripts : List RelayScript)
    (n : Nat) : Global × List BranchState :=
  (List.range n).foldl (fun s t => stepTime invoice recipient scripts t s)
    (initGlobal, scripts.map (fun _ => initBranch))

/-- Latest time at which a script can trigger a handler. -/
def scriptLastTime (sc : RelayScript) : Nat :=
  let c := match sc.conn with
    | ConnBehavior.ok t0 => t0 + perPeerTimeout
    | ConnBehavior.fail t0 => t0
    | ConnBehavior.never => 0
  let ev := sc.events.foldl (fun m p => max m p.1) 0
  max c (max ev (sc.eose.getD 0))

/-- A horizon past every scheduled handler of the query. -/
def simHorizon (scripts : List RelayScript) : Nat :=
  scripts.foldl (fun m sc => max m (scriptLastTime sc)) overallTimeout + 2

/-- Embedding of `fetchZapReceiptForInvoice(invoice, recipientPubkey,
relayUrls)` (src/lib/zap.ts:856-983) against the relay environment `scripts`
(one script per configured relay URL): the resolution of the returned promise,
as `(time, receipt-or-null)` — `none` meaning the promise never resolves. -/
def fetchZapReceiptForInvoice (invoice : String) (recipient : Option String)
    (scripts : List RelayScript) : Option (Nat × Option ZapReceiptInfo) :=
  (simUpTo invoice recipient scripts (simHorizon scripts)).1.overall

/-- The receipt-or-null the awaited query yields, `none` if it never resolves. -/
def queryResult (invoice : String) (recipient : Option String)
    (scripts : List RelayScript) : Option (Option ZapReceiptInfo) :=
  (fetchZapReceiptForInvoice invoice recipient scripts).map (fun p => p.2)

/-- `results.set(key, value)` on a JavaScript `Map` held as an ordered
association list (keys unique): overwrite in place if the key exists, append
otherwise. -/
def setEntry : List (String × ZapReceiptInfo) → String → ZapReceiptInfo →
    List (String × ZapReceiptInfo)
  | [], k, v => [(k, v)]
  | (a, w) :: t, k, v => if a = k then (k, v) :: t else (a, w) :: setEntry t k v

/-- Embedding of `fetchZapReceiptsForInvoices(invoices)`
(src/lib/zap.ts:988-1009): per invoice it awaits
`fetchZapReceiptForInvoice(invoice)` — with the `recipientPubkey` argument
absent (`undefined`, here `none`) and the default relay list, whose
environment `env invoice` provides — and stores the receipt in the map when it
is non-null.  The result is `none` when some query's promise never resolves
(the batch `Promise.all` would hang). -/
def fetchZapReceiptsForInvoices (invoices : List String)
    (env : String → List RelayScript) : Option (List (String × ZapReceiptInfo)) :=
  if invoices.all (fun inv => (queryResult inv none (env inv)).isSome) then
    some (invoices.foldl (fun acc inv =>
      match queryResult inv none (env inv) with
      | some (some r) => setEntry acc inv r
      | _ => acc) [])
  else none

/-- The description sub-record the matcher works with: the value of the first
`description` tag, if non-empty and JSON-parsable. -/
def descRequest (e : NostrEvent) : Option Json :=
  match firstTagValue e "description" with
  | none => none
  | some d => if d = "" then none else parseJson d

/-- The exact acceptance condition of `parseZapReceipt`, read off the source's
gates: first `bolt11` tag value non-empty and equal to the invoice, first
`description` tag value parses to a JSON value with `kind` the number 9734 and
a truthy `pubkey`, and first `p` tag value non-empty. -/
def codeMatcherAccepts (e : NostrEvent) (fp : String) : Bool :=
  (match firstTagValue e "bolt11" with
   | some b => b != "" && b == fp
   | none => false) &&
  (match descRequest e with
   | some j => isKind9734 (j.getField "kind") && !jsFalsyO (j.getField "pubkey")
   | none => false) &&
  (match firstTagValue e "p" with
   | some p => p != ""
   | none => false)

/-- The extraction `parseZapReceipt` performs once every gate has passed. -/
def extractResult (e : NostrEvent) : Option ZapReceiptInfo :=
  match descRequest e, firstTagValue e "p" with
  | some j, some p =>
    some { senderPubkey := (j.getField "pubkey").getD Json.null,
           recipientPubkey := p,
           eventId := firstTagValue e "e",
           comment := jsOrEmpty (j.getField "content") }
  | _, _ => none

/-- A record that is well-formed apart from the fingerprint comparison: every
gate of `parseZapReceipt` other than `bolt11 === invoice` passes. -/
def wellFormedRecord (e : NostrEvent) : Bool :=
  (match firstTagValue e "bolt11" with
   | some b => b != ""
   | none => false) &&
  (match descRequest e with
   | some j => isKind9734 (j.getField "kind") && !jsFalsyO (j.getField "pubkey")
   | none => false) &&
  (match firstTagValue e "p" with
   | some p => p != ""
   | none => false)

/-- The acceptance condition as claim C2 words it: the record has a `bolt11`
tag whose value equals the fingerprint, a `description` tag parsing as JSON
with kind 9734 and a non-empty pubkey in the parsed sub-record, and an outer
`p` tag. -/
def specMatcherAccepts (e : NostrEvent) (fp : String) : Bool :=
  (e.tags.getD []).any (fun t => t.get? 0 == some "bolt11" && t.get? 1 == some fp) &&
  (e.tags.getD []).any (fun t =>
    t.get? 0 == some "description" &&
    (match t.get? 1 with
     | some d =>
       (match parseJson d with
        | some j =>
          isKind9734 (j.getField "kind") &&
          (match j.getField "pubkey" with
           | some (Json.str s) => s != ""
           | _ => false)
        | none => false)
     | none => false)) &&
  (e.tags.getD []).any (fun t => t.get? 0 == some "p")

/-- A record satisfying claim C2's worded condition (its `p` tag is present,
its bolt11 value equals the fingerprint, its description is the valid fixture)
whose `p` tag value is the empty string. -/
def eventPEmpty : NostrEvent :=
  { tags := some [["bolt11", fp0], ["description", descFixture], ["p", ""]] }

/-- A record whose description value is not valid JSON. -/
def eventBadJson : NostrEvent :=
  { tags := some [["bolt11", fp0], ["description", "not json"], ["p", recipient0]] }

/-- Description of a second matching zap request, published by peer B. -/
def descB : String := "\x7b\"kind\":9734,\"pubkey\":\"sender2\",\"content\":\"fromB\"\x7d"

/-- Peer B's matching record in the first-match-wins scenario. -/
def eventB : NostrEvent :=
  { tags := some [["bolt11", fp0], ["description", descB], ["p", recipient0]] }

/-- First-match-wins scenario of the spec: peer A yields a matching record at
t = 2, peer B yields a matching record at t = 4; neither signals EOSE. -/
def scriptsC1 : List RelayScript :=
  [{ conn := ConnBehavior.ok 0, events := [(2, eventRelay1)], eose := none },
   { conn := ConnBehavior.ok 0, events := [(4, eventB)], eose := none }]

/-- Two peers that drain without a match: EOSE at t = 1 and t = 2. -/
def scriptsC6 : List RelayScript :=
  [{ conn := ConnBehavior.ok 0, events := [], eose := some 1 },
   { conn := ConnBehavior.ok 0, events := [], eose := some 2 }]

/-- A single peer that connects at t = 0 and drains at t = 1. -/
def scriptsC5 : List RelayScript :=
  [{ conn := ConnBehavior.ok 0, events := [], eose := some 1 }]

/-- A single peer whose connection succeeds only at t = 7 and that never
delivers anything afterwards. -/
def scriptsC5b : List RelayScript :=
  [{ conn := ConnBehavior.ok 7, events := [], eose := none }]

/-- A single peer whose connection fails at t = 1. -/
def scriptsC8 : List RelayScript :=
  [{ conn := ConnBehavior.fail 1, events := [], eose := none }]

/-- A single peer whose connection hangs forever. -/
def scriptsC7w : List RelayScript :=
  [{ conn := ConnBehavior.never, events := [], eose := none }]

/-- Relay environment for the batch scenario: every query sees one relay that
delivers the relay-1 fixture record at t = 1. -/
def envC10 : String → List RelayScript :=
  fun _ => [{ conn := ConnBehavior.ok 0, events := [(1, eventRelay1)], eose := none }]

/-- The matcher is exactly guard-then-extract: it accepts precisely under
`codeMatcherAccepts` and then returns `extractResult`. -/
theorem parseZapReceipt_eq_guard (e : NostrEvent) (fp : String) :
    parseZapReceipt e fp = if codeMatcherAccepts e fp then extractResult e else none := by
  unfold parseZapReceipt codeMatcherAccepts extractResult descRequest
  cases hb : firstTagValue e "bolt11" with
  | none => simp
  | some b =>
    by_cases hbe : b = ""
    · subst hbe; simp
    · by_cases hbf : b = fp
      · subst hbf
        simp only [if_neg hbe, bne_iff_ne, ne_eq, hbe, not_false_eq_true, beq_self_eq_true,
          Bool.and_self, Bool.true_and, ite_not, if_neg]
        cases hd : firstTagValue e "description" with
        | none => simp
        | some d =>
          by_cases hde : d = ""
          · subst hde; simp
          · simp only [if_neg hde]
            cases hj : parseJson d with
            | none => simp
            | some j =>
              by_cases hk : isKind9734 (j.getField "kind")
              · simp only [hk, Bool.not_true, Bool.true_and, if_neg]
                cases hp : firstTagValue e "p" with
                | none => simp
                | some p =>
                  by_cases hpe : p = ""
                  · subst hpe; simp
                  · by_cases hs : jsFalsyO (j.getField "pubkey")
                    · simp [hpe, hs]
                    · simp [hpe, hs, hbe]
              · simp [hk]
      · simp [hbe, hbf]

/-- C2 counterexample: this record satisfies the claim's worded acceptance
condition (a `bolt11` tag equal to the fingerprint, a valid kind-9734
description with non-empty pubkey, an outer `p` tag), yet the matcher rejects
it, because the value of its `p` tag is the empty string (falsy, so the
source's `if (!recipientPubkey) return null` fires). -/
theorem C2_counterexample :
    specMatcherAccepts eventPEmpty fp0 = true ∧ parseZapReceipt eventPEmpty fp0 = none :=
  ⟨rfl, rfl⟩

/-- C2 (amended): the Matcher returns a MatchResult exactly when the first
`bolt11` tag's value is non-empty and equals the fingerprint, the first
`description` tag's value parses as JSON with kind 9734 and a truthy pubkey,
and the first outer `p` tag has a non-empty value; the result then carries
sender = sub-record pubkey, recipient = first `p` tag value, subject id =
first `e` tag value when present, and comment = sub-record content defaulting
to the empty string.  On the literal relay-1 fixture it yields
MatchResult{sender: "sender1", recipient: "abc123...", subjectId: none,
comment: "gm"}. -/
theorem C2_matcher_contract :
    (∀ e fp, parseZapReceipt e fp = if codeMatcherAccepts e fp then extractResult e else none) ∧
    codeMatcherAccepts eventRelay1 fp0 = true ∧
    parseZapReceipt eventRelay1 fp0 = some resultRelay1 :=
  ⟨parseZapReceipt_eq_guard, rfl, rfl⟩

/-- C3: for every record that is well-formed apart from the fingerprint
comparison, the Matcher rejects exactly when the embedded fingerprint differs
from the query's fingerprint; and every MatchResult comes from a record whose
embedded fingerprint equals the query's fingerprint exactly. -/
theorem C3_fingerprint_exactness :
    (∀ e fp, wellFormedRecord e = true →
      (parseZapReceipt e fp = none ↔ firstTagValue e "bolt11" ≠ some fp)) ∧
    (∀ e fp r, parseZapReceipt e fp = some r → firstTagValue e "bolt11" = some fp) := by
  constructor
  · intro e fp hwf
    rw [parseZapReceipt_eq_guard]
    unfold wellFormedRecord at hwf
    unfold codeMatcherAccepts
    cases hb : firstTagValue e "bolt11" with
    | none => rw [hb] at hwf; simp at hwf
    | some b =>
      rw [hb] at hwf
      simp only [hb, Bool.and_eq_true, bne_iff_ne, ne_eq] at hwf ⊢
      obtain ⟨⟨hbne, hdesc⟩, hp⟩ := hwf
      cases hdq : descRequest e with
      | none => rw [hdq] at hdesc; simp at hdesc
      | some j =>
        rw [hdq] at hdesc
        cases hpq : firstTagValue e "p" with
        | none => rw [hpq] at hp; simp at hp
        | some p =>
          rw [hpq] at hp
          simp only [Bool.and_eq_true, Bool.not_eq_true'] at hdesc
          simp only [bne_iff_ne, ne_eq] at hp
          have hextract : extractResult e = some
              { senderPubkey := (j.getField "pubkey").getD Json.null,
                recipientPubkey := p,
                eventId := firstTagValue e "e",
                comment := jsOrEmpty (j.getField "content") } := by
            unfold extractResult
            rw [hdq, hpq]
          by_cases hbf : b = fp
          · subst hbf
            simp [hdq, hpq, hdesc.1, hdesc.2, hp, hbne, hextract]
          · have hne : (b == fp) = false := by simp [hbf]
            simp [hdq, hpq, hdesc.1, hdesc.2, hp, hbne, hne, hbf]
  · intro e fp r h
    rw [parseZapReceipt_eq_guard] at h
    by_cases hacc : codeMatcherAccepts e fp = true
    · unfold codeMatcherAccepts at hacc
      cases hb : firstTagValue e "bolt11" with
      | none => rw [hb] at hacc; simp at hacc
      | some b =>
        rw [hb] at hacc
        simp only [Bool.and_eq_true, bne_iff_ne, ne_eq, beq_iff_eq] at hacc
        rw [hacc.1.1.2]
    · simp [hacc] at h

/-- C3 witness: the relay-1 fixture is well-formed; against a fingerprint
differing from its embedded one by a single character the Matcher rejects it. -/
theorem C3_witness :
    wellFormedRecord eventRelay1 = true ∧
    (parseZapReceipt eventRelay1 "lnbc100n1x..." = none ↔
      firstTagValue eventRelay1 "bolt11" ≠ some "lnbc100n1x...") ∧
    parseZapReceipt eventRelay1 "lnbc100n1x..." = none :=
  ⟨rfl, C3_fingerprint_exactness.1 eventRelay1 "lnbc100n1x..." rfl, rfl⟩

/-- C4: the Matcher rejects (returns `none`, the embedding of `return null`)
on every malformed input — an absent tag list, a description that is not
valid JSON, a description that is not a kind-9734 request — and a rejected
record leaves the query state untouched (the `onevent` handler is a no-op on
it), so a malformed record never fails the query. -/
theorem C4_matcher_totality :
    (∀ fp, parseZapReceipt { tags := none } fp = none) ∧
    (∀ e fp d, firstTagValue e "description" = some d → parseJson d = none →
      parseZapReceipt e fp = none) ∧
    (∀ e fp j, descRequest e = some j → isKind9734 (j.getField "kind") = false →
      parseZapReceipt e fp = none) ∧
    (∀ invoice p e, parseZapReceipt e invoice = none → deliverOne invoice p e = p) := by
  refine ⟨fun fp => rfl, ?_, ?_, ?_⟩
  · intro e fp d hd hparse
    rw [parseZapReceipt_eq_guard]
    simp [codeMatcherAccepts, descRequest, hd, hparse]
  · intro e fp j hdq hk
    rw [parseZapReceipt_eq_guard]
    simp [codeMatcherAccepts, hdq, hk]
  · intro invoice p e h
    unfold deliverOne
    rw [h]
    split
    · split <;> rfl
    · rfl

/-- C4 witness: a record whose description is not JSON is rejected, and
delivering it to an open subscription changes nothing. -/
theorem C4_witness :
    firstTagValue eventBadJson "description" = some "not json" ∧
    parseJson "not json" = none ∧
    parseZapReceipt eventBadJson fp0 = none ∧
    deliverOne fp0 (initGlobal, { initBranch with subOpen := true }) eventBadJson =
      (initGlobal, { initBranch with subOpen := true }) :=
  ⟨rfl, rfl,
   C4_matcher_totality.2.1 eventBadJson fp0 "not json" rfl rfl,
   C4_matcher_totality.2.2.2 fp0 (initGlobal, { initBranch with subOpen := true }) eventBadJson
     (C4_matcher_totality.2.1 eventBadJson fp0 "not json" rfl rfl)⟩

/-- A property preserved by each fold step is preserved by the fold. -/
theorem foldl_pres {α β : Type} (f : α → β → α) (P : α → Prop)
    (h : ∀ a b, P a → P (f a b)) : ∀ (l : List β) (a : α), P a → P (l.foldl f a) := by
  intro l
  induction l with
  | nil => intro a ha; exact ha
  | cons x xs ih => intro a ha; exact ih (f a x) (h a x ha)

/-- `connectStep` never touches the shared state. -/
theorem connectStep_fst (rcp : Option String) (t : Nat) (sc : RelayScript)
    (p : Global × BranchState) : (connectStep rcp t sc p).1 = p.1 := by
  unfold connectStep
  split <;> first | rfl | (split <;> rfl)

/-- `timeoutStep` never touches the shared state. -/
theorem timeoutStep_fst (t : Nat) (sc : RelayScript) (p : Global × BranchState) :
    (timeoutStep t sc p).1 = p.1 := by
  unfold timeoutStep
  split <;> first | rfl | (split <;> rfl)

/-- `deliverOne` never touches the outer promise resolution. -/
theorem deliverOne_overall (inv : String) (p : Global × BranchState) (e : NostrEvent) :
    (deliverOne inv p e).1.overall = p.1.overall := by
  unfold deliverOne
  split
  · split
    · rfl
    · split <;> rfl
  · rfl

/-- `deliverOne` keeps an already-stored receipt unchanged (the
`if (!zapReceipt)` guard). -/
theorem deliverOne_receipt_mono (inv : String) (p : Global × BranchState) (e : NostrEvent)
    (r : ZapReceiptInfo) (h : p.1.zapReceipt = some r) :
    (deliverOne inv p e).1.zapReceipt = some r := by
  unfold deliverOne
  rw [h]
  split <;> exact h

/-- `deliverOne` never touches the connection flag. -/
theorem deliverOne_connOpen (inv : String) (p : Global × BranchState) (e : NostrEvent) :
    (deliverOne inv p e).2.connOpen = p.2.connOpen := by
  unfold deliverOne
  split
  · split
    · rfl
    · split <;> rfl
  · rfl

/-- `deliverOne` never touches the recorded filter. -/
theorem deliverOne_filter (inv : String) (p : Global × BranchState) (e : NostrEvent) :
    (deliverOne inv p e).2.filter = p.2.filter := by
  unfold deliverOne
  split
  · split
    · rfl
    · split <;> rfl
  · rfl

/-- `eoseStep` never touches the stored receipt. -/
theorem eoseStep_receipt (total t : Nat) (sc : RelayScript) (p : Global × BranchState) :
    (eoseStep total t sc p).1.zapReceipt = p.1.zapReceipt := by
  unfold eoseStep
  split <;> first | rfl | (split <;> first | rfl | (split <;> rfl))

/-- `eoseStep` never touches the outer promise resolution. -/
theorem eoseStep_overall (total t : Nat) (sc : RelayScript) (p : Global × BranchState) :
    (eoseStep total t sc p).1.overall = p.1.overall := by
  unfold eoseStep
  split <;> first | rfl | (split <;> first | rfl | (split <;> rfl))

/-- `eoseStep` never touches the connection flag. -/
theorem eoseStep_connOpen (total t : Nat) (sc : RelayScript) (p : Global × BranchState) :
    (eoseStep total t sc p).2.connOpen = p.2.connOpen := by
  unfold eoseStep
  split <;> first | rfl | (split <;> first | rfl | (split <;> rfl))

/-- `eoseStep` never touches the recorded filter. -/
theorem eoseStep_filter (total t : Nat) (sc : RelayScript) (p : Global × BranchState) :
    (eoseStep total t sc p).2.filter = p.2.filter := by
  unfold eoseStep
  split <;> first | rfl | (split <;> first | rfl | (split <;> rfl))

/-- `timeoutStep` never touches the connection flag. -/
theorem timeoutStep_connOpen (t : Nat) (sc : RelayScript) (p : Global × BranchState) :
    (timeoutStep t sc p).2.connOpen = p.2.connOpen := by
  unfold timeoutStep
  split <;> first | rfl | (split <;> rfl)

/-- `timeoutStep` never touches the recorded filter. -/
theorem timeoutStep_filter (t : Nat) (sc : RelayScript) (p : Global × BranchState) :
    (timeoutStep t sc p).2.filter = p.2.filter := by
  unfold timeoutStep
  split <;> first | rfl | (split <;> rfl)

/-- `connectStep` keeps an open connection open. -/
theorem connectStep_connOpen_mono (rcp : Option String) (t : Nat) (sc : RelayScript)
    (p : Global × BranchState) (h : p.2.connOpen = true) :
    (connectStep rcp t sc p).2.connOpen = true := by
  unfold connectStep
  split <;> first | exact h | (split <;> first | rfl | exact h)

/-- `connectStep` either keeps the recorded filter or records the query's
filter. -/
theorem connectStep_filter (rcp : Option String) (t : Nat) (sc : RelayScript)
    (p : Global × BranchState) :
    (connectStep rcp t sc p).2.filter = p.2.filter ∨
    (connectStep rcp t sc p).2.filter = some (mkZapFilter rcp) := by
  unfold connectStep
  split
  · split
    · right; rfl
    · left; rfl
  · split <;> left <;> rfl
  · left; rfl

/-- A delivery fold never touches the recorded filter. -/
theorem foldlDeliver_filter (invoice : String) :
    ∀ (l : List (Nat × NostrEvent)) (p : Global × BranchState),
      (l.foldl (fun q ev => deliverOne invoice q ev.2) p).2.filter = p.2.filter := by
  intro l
  induction l with
  | nil => intro p; rfl
  | cons x xs ih => intro p; rw [List.foldl_cons, ih, deliverOne_filter]

/-- `branchStep` never touches the outer promise resolution. -/
theorem branchStep_overall (invoice : String) (recipient : Option String) (total t : Nat)
    (g : Global) (sc : RelayScript) (b : BranchState) :
    (branchStep invoice recipient total t g sc b).1.overall = g.overall := by
  unfold branchStep
  rw [timeoutStep_fst, eoseStep_overall]
  exact foldl_pres (fun (q : Global × BranchState) (ev : Nat × NostrEvent) =>
      deliverOne invoice q ev.2)
    (fun q => q.1.overall = g.overall)
    (fun a ev ha => by
      show (deliverOne invoice a ev.2).1.overall = g.overall
      rw [deliverOne_overall]; exact ha) _ _
    (by show (connectStep recipient t sc (g, b)).1.overall = g.overall
        rw [connectStep_fst])

/-- `branchStep` keeps an already-stored receipt unchanged. -/
theorem branchStep_receipt_mono (invoice : String) (recipient : Option String) (total t : Nat)
    (g : Global) (sc : RelayScript) (b : BranchState) (r : ZapReceiptInfo)
    (h : g.zapReceipt = some r) :
    (branchStep invoice recipient total t g sc b).1.zapReceipt = some r := by
  unfold branchStep
  rw [timeoutStep_fst, eoseStep_receipt]
  exact foldl_pres (fun (q : Global × BranchState) (ev : Nat × NostrEvent) =>
      deliverOne invoice q ev.2)
    (fun q => q.1.zapReceipt = some r)
    (fun a ev ha => deliverOne_receipt_mono invoice a ev.2 r ha) _ _
    (by show (connectStep recipient t sc (g, b)).1.zapReceipt = some r
        rw [connectStep_fst]; exact h)

/-- A branch with no events to deliver leaves the stored receipt unchanged. -/
theorem branchStep_receipt_nil (invoice : String) (recipient : Option String) (total t : Nat)
    (g : Global) (sc : RelayScript) (b : BranchState) (h : sc.events = []) :
    (branchStep invoice recipient total t g sc b).1.zapReceipt = g.zapReceipt := by
  unfold branchStep
  rw [timeoutStep_fst, eoseStep_receipt, h, List.filter_nil, List.foldl_nil, connectStep_fst]

/-- `branchStep` keeps an open connection open: no handler ever closes the
relay connection. -/
theorem branchStep_connOpen_mono (invoice : String) (recipient : Option String) (total t : Nat)
    (g : Global) (sc : RelayScript) (b : BranchState) (h : b.connOpen = true) :
    (branchStep invoice recipient total t g sc b).2.connOpen = true := by
  unfold branchStep
  rw [timeoutStep_connOpen, eoseStep_connOpen]
  exact foldl_pres (fun (q : Global × BranchState) (ev : Nat × NostrEvent) =>
      deliverOne invoice q ev.2)
    (fun q => q.2.connOpen = true)
    (fun a ev ha => by
      show (deliverOne invoice a ev.2).2.connOpen = true
      rw [deliverOne_connOpen]; exact ha) _ _
    (connectStep_connOpen_mono recipient t sc (g, b) h)

/-- `branchStep` either keeps the branch's filter or records the query's
filter. -/
theorem branchStep_filter (invoice : String) (recipient : Option String) (total t : Nat)
    (g : Global) (sc : RelayScript) (b : BranchState) :
    (branchStep invoice recipient total t g sc b).2.filter = b.filter ∨
    (branchStep invoice recipient total t g sc b).2.filter = some (mkZapFilter recipient) := by
  unfold branchStep
  rw [timeoutStep_filter, eoseStep_filter, foldlDeliver_filter]
  exact connectStep_filter recipient t sc (g, b)

/-- `runBranches` never touches the outer promise resolution. -/
theorem runBranches_overall (invoice : String) (recipient : Option String) (total t : Nat) :
    ∀ (l : List (RelayScript × BranchState)) (g : Global),
      (runBranches invoice recipient total t l g).1.overall = g.overall := by
  intro l
  induction l with
  | nil => intro g; rfl
  | cons x xs ih =>
    intro g
    obtain ⟨sc, b⟩ := x
    simp only [runBranches]
    rw [ih, branchStep_overall]

/-- `runBranches` keeps an already-stored receipt unchanged. -/
theorem runBranches_receipt_mono (invoice : String) (recipient : Option String) (total t : Nat) :
    ∀ (l : List (RelayScript × BranchState)) (g : Global) (r : ZapReceiptInfo),
      g.zapReceipt = some r →
      (runBranches invoice recipient total t l g).1.zapReceipt = some r := by
  intro l
  induction l with
  | nil => intro g r h; exact h
  | cons x xs ih =>
    intro g r h
    obtain ⟨sc, b⟩ := x
    simp only [runBranches]
    exact ih _ r (branchStep_receipt_mono invoice recipient total t g sc b r h)

/-- With no events anywhere, `runBranches` leaves the stored receipt
unchanged. -/
theorem runBranches_receipt_nil (invoice : String) (recipient : Option String) (total t : Nat) :
    ∀ (l : List (RelayScript × BranchState)) (g : Global),
      (∀ pr ∈ l, pr.1.events = []) →
      (runBranches invoice recipient total t l g).1.zapReceipt = g.zapReceipt := by
  intro l
  induction l with
  | nil => intro g _; rfl
  | cons x xs ih =>
    intro g h
    obtain ⟨sc, b⟩ := x
    simp only [runBranches]
    rw [ih _ (fun pr hpr => h pr (List.mem_cons_of_mem _ hpr)),
      branchStep_receipt_nil invoice recipient total t g sc b (h (sc, b) (List.mem_cons_self _ _))]

/-- `runBranches` returns one branch state per input pair. -/
theorem runBranches_length (invoice : String) (recipient : Option String) (total t : Nat) :
    ∀ (l : List (RelayScript × BranchState)) (g : Global),
      (runBranches invoice recipient total t l g).2.length = l.length := by
  intro l
  induction l with
  | nil => intro g; rfl
  | cons x xs ih =>
    intro g
    obtain ⟨sc, b⟩ := x
    simp only [runBranches, List.length_cons]
    rw [ih]

/-- The i-th output branch of `runBranches` is the i-th input branch advanced
by `branchStep` under some intermediate shared state. -/
theorem runBranches_get (invoice : String) (recipient : Option String) (total t : Nat) :
    ∀ (l : List (RelayScript × BranchState)) (g : Global) (i : Nat) (sc : RelayScript)
      (b : BranchState), l.get? i = some (sc, b) →
      ∃ g2, (runBranches invoice recipient total t l g).2.get? i =
        some ((branchStep invoice recipient total t g2 sc b).2) := by
  intro l
  induction l with
  | nil => intro g i sc b h; simp at h
  | cons x xs ih =>
    intro g i sc b h
    obtain ⟨sc0, b0⟩ := x
    cases i with
    | zero =>
      simp only [List.get?_cons_zero, Option.some.injEq, Prod.mk.injEq] at h
      obtain ⟨rfl, rfl⟩ := h
      refine ⟨g, ?_⟩
      simp only [runBranches, List.get?_cons_zero]
    | succ i =>
      simp only [List.get?_cons_succ] at h
      simp only [runBranches, List.get?_cons_succ]
      exact ih _ i sc b h

/-- `promiseAllStep` never touches the stored receipt. -/
theorem promiseAllStep_receipt (t : Nat) (g : Global) (bs : List BranchState) :
    (promiseAllStep t g bs).zapReceipt = g.zapReceipt := by
  unfold promiseAllStep
  split <;> rfl

/-- `overallTimeoutStep` never touches the stored receipt. -/
theorem overallTimeoutStep_receipt (t : Nat) (g : Global) :
    (overallTimeoutStep t g).zapReceipt = g.zapReceipt := by
  unfold overallTimeoutStep
  split <;> rfl

/-- `promiseAllStep` keeps a resolved promise resolved with the same value. -/
theorem promiseAllStep_overall_mono (t : Nat) (g : Global) (bs : List BranchState)
    (tr : Nat × Option ZapReceiptInfo) (h : g.overall = some tr) :
    (promiseAllStep t g bs).overall = some tr := by
  simp [promiseAllStep, h]

/-- `overallTimeoutStep` keeps a resolved promise resolved with the same
value. -/
theorem overallTimeoutStep_overall_mono (t : Nat) (g : Global)
    (tr : Nat × Option ZapReceiptInfo) (h : g.overall = some tr) :
    (overallTimeoutStep t g).overall = some tr := by
  simp [overallTimeoutStep, h]

/-- One simulation step keeps an already-stored receipt unchanged. -/
theorem stepTime_receipt_mono (invoice : String) (recipient : Option String)
    (scripts : List RelayScript) (t : Nat) (s : Global × List BranchState)
    (r : ZapReceiptInfo) (h : s.1.zapReceipt = some r) :
    (stepTime invoice recipient scripts t s).1.zapReceipt = some r := by
  unfold stepTime stepResolve
  rw [overallTimeoutStep_receipt, promiseAllStep_receipt]
  exact runBranches_receipt_mono invoice recipient scripts.length t _ s.1 r h

/-- One simulation step keeps a resolved outer promise resolved with the same
value. -/
theorem stepTime_overall_mono (invoice : String) (recipient : Option String)
    (scripts : List RelayScript) (t : Nat) (s : Global × List BranchState)
    (tr : Nat × Option ZapReceiptInfo) (h : s.1.overall = some tr) :
    (stepTime invoice recipient scripts t s).1.overall = some tr := by
  unfold stepTime stepResolve
  apply overallTimeoutStep_overall_mono
  apply promiseAllStep_overall_mono
  rw [runBranches_overall]
  exact h

/-- With peers that deliver no events, one simulation step leaves the stored
receipt unchanged. -/
theorem stepTime_receipt_nil (invoice : String) (recipient : Option String)
    (scripts : List RelayScript) (t : Nat) (s : Global × List BranchState)
    (h : ∀ sc ∈ scripts, sc.events = []) :
    (stepTime invoice recipient scripts t s).1.zapReceipt = s.1.zapReceipt := by
  unfold stepTime stepResolve
  rw [overallTimeoutStep_receipt, promiseAllStep_receipt]
  apply runBranches_receipt_nil
  intro pr hpr
  exact h pr.1 (List.of_mem_zip hpr).1

/-- Unfolding one simulation step. -/
theorem simUpTo_succ (invoice : String) (recipient : Option String)
    (scripts : List RelayScript) (n : Nat) :
    simUpTo invoice recipient scripts (n + 1) =
      stepTime invoice recipient scripts n (simUpTo invoice recipient scripts n) := by
  unfold simUpTo
  rw [List.range_succ, List.foldl_append, List.foldl_cons, List.foldl_nil]

/-- The simulation always tracks one branch per configured relay. -/
theorem simUpTo_length (invoice : String) (recipient : Option String)
    (scripts : List RelayScript) : ∀ n : Nat,
    (simUpTo invoice recipient scripts n).2.length = scripts.length := by
  intro n
  induction n with
  | zero => simp [simUpTo]
  | succ n ih =>
    rw [simUpTo_succ]
    show (runBranches invoice recipient scripts.length n _ _).2.length = _
    rw [runBranches_length, List.length_zip, ih, Nat.min_self]

/-- C9: the shared "has a match been found yet" state is written at most once
per query — once some branch's record has been accepted and stored, the
stored MatchResult never changes for the rest of the query, whatever any
branch delivers later. -/
theorem C9_one_shot_flag (invoice : String) (recipient : Option String)
    (scripts : List RelayScript) (n m : Nat) (r : ZapReceiptInfo) (hnm : n ≤ m)
    (h : (simUpTo invoice recipient scripts n).1.zapReceipt = some r) :
    (simUpTo invoice recipient scripts m).1.zapReceipt = some r := by
  induction hnm with
  | refl => exact h
  | step _ ih =>
    rw [simUpTo_succ]
    exact stepTime_receipt_mono invoice recipient scripts _ _ r ih

/-- C9 witness: in the two-peer race scenario, the receipt stored when peer
A's record is accepted at t = 2 is still the stored receipt at t = 8, after
peer B has delivered its own matching record at t = 4. -/
theorem C9_witness :
    3 ≤ 8 ∧
    (simUpTo fp0 (some recipient0) scriptsC1 3).1.zapReceipt = some resultRelay1 ∧
    (simUpTo fp0 (some recipient0) scriptsC1 8).1.zapReceipt = some resultRelay1 :=
  ⟨by decide, rfl,
   C9_one_shot_flag fp0 (some recipient0) scriptsC1 3 8 resultRelay1 (by decide) rfl⟩

/-- Once the outer promise has resolved, it stays resolved with that value. -/
theorem simUpTo_overall_mono (invoice : String) (recipient : Option String)
    (scripts : List RelayScript) (n m : Nat) (tr : Nat × Option ZapReceiptInfo)
    (hnm : n ≤ m) (h : (simUpTo invoice recipient scripts n).1.overall = some tr) :
    (simUpTo invoice recipient scripts m).1.overall = some tr := by
  induction hnm with
  | refl => exact h
  | step _ ih =>
    rw [simUpTo_succ]
    exact stepTime_overall_mono invoice recipient scripts _ _ tr ih

/-- Indexing a zip of two lists. -/
theorem zip_get?_some {α β : Type} : ∀ (l1 : List α) (l2 : List β) (i : Nat) (a : α) (b : β),
    l1.get? i = some a → l2.get? i = some b → (l1.zip l2).get? i = some (a, b) := by
  intro l1
  induction l1 with
  | nil => intro l2 i a b h _; simp at h
  | cons x xs ih =>
    intro l2 i a b h1 h2
    cases l2 with
    | nil => simp at h2
    | cons y ys =>
      cases i with
      | zero =>
        simp only [List.get?_cons_zero, Option.some.injEq] at h1 h2
        simp [List.zip_cons_cons, h1, h2]
      | succ i =>
        simp only [List.get?_cons_succ] at h1 h2
        simp only [List.zip_cons_cons, List.get?_cons_succ]
        exact ih ys i a b h1 h2

/-- A per-branch property preserved by `branchStep` is preserved by one
simulation step, per branch. -/
theorem stepTime_branch_pres (invoice : String) (recipient : Option String)
    (scripts : List RelayScript) (t : Nat) (P : BranchState → Prop)
    (hP : ∀ g sc b, P b → P ((branchStep invoice recipient scripts.length t g sc b).2))
    (s : Global × List BranchState) (i : Nat) (b : BranchState)
    (hlen : s.2.length = scripts.length) (hb : s.2.get? i = some b) (hpb : P b) :
    ∃ b2, (stepTime invoice recipient scripts t s).2.get? i = some b2 ∧ P b2 := by
  obtain ⟨hi, -⟩ := List.get?_eq_some.mp hb
  have hsc : scripts.get? i = some (scripts.get ⟨i, hlen ▸ hi⟩) := List.get?_eq_get _
  have hz := zip_get?_some scripts s.2 i _ b hsc hb
  obtain ⟨g2, hg⟩ :=
    runBranches_get invoice recipient scripts.length t (scripts.zip s.2) s.1 i _ b hz
  refine ⟨(branchStep invoice recipient scripts.length t g2 (scripts.get ⟨i, hlen ▸ hi⟩) b).2,
    ?_, hP g2 (scripts.get ⟨i, hlen ▸ hi⟩) b hpb⟩
  show (runBranches invoice recipient scripts.length t (scripts.zip s.2) s.1).2.get? i = _
  exact hg

/-- A per-branch property preserved by `branchStep` persists for the rest of
the simulation once established. -/
theorem simUpTo_branch_pres (invoice : String) (recipient : Option String)
    (scripts : List RelayScript) (P : BranchState → Prop)
    (hP : ∀ t g sc b, P b → P ((branchStep invoice recipient scripts.length t g sc b).2))
    (n m i : Nat) (b : BranchState) (hnm : n ≤ m)
    (hb : (simUpTo invoice recipient scripts n).2.get? i = some b) (hpb : P b) :
    ∃ b2, (simUpTo invoice recipient scripts m).2.get? i = some b2 ∧ P b2 := by
  induction hnm with
  | refl => exact ⟨b, hb, hpb⟩
  | step _ ih =>
    obtain ⟨b2, hb2, hpb2⟩ := ih
    rw [simUpTo_succ]
    exact stepTime_branch_pres invoice recipient scripts _ P (hP _) _ i b2
      (simUpTo_length invoice recipient scripts _) hb2 hpb2

/-- C1 counterexample: in the spec's own two-peer scenario (peer A delivers a
matching record at t = 2, peer B at t = 4), one time unit after A's record
has been accepted the stored receipt is A's, yet the query has NOT resolved
and B's subscription is still open — refuting "the overall query resolves
immediately and every still-active sibling branch is cancelled before the
query call returns". -/
theorem C1_counterexample :
    (simUpTo fp0 (some recipient0) scriptsC1 3).1.zapReceipt = some resultRelay1 ∧
    (simUpTo fp0 (some recipient0) scriptsC1 3).1.overall = none ∧
    ((simUpTo fp0 (some recipient0) scriptsC1 3).2.map (fun b => b.subOpen)) = [false, true] :=
  ⟨rfl, rfl, rfl⟩

/-- C1 (amended): the first accepted record fixes the query's result — B's
later matching record at t = 4 is never even parsed — but the query resolves
only once every branch promise has settled on its own: B's branch runs to its
per-peer timeout at t = 5, at which point the query resolves with A's
MatchResult; sibling subscriptions are not torn down at match time. -/
theorem C1_first_match_fixes_result :
    (simUpTo fp0 (some recipient0) scriptsC1 12).1.overall = some (5, some resultRelay1) ∧
    ((simUpTo fp0 (some recipient0) scriptsC1 6).2.map (fun b => b.subOpen)) = [false, false] ∧
    ((simUpTo fp0 (some recipient0) scriptsC1 6).2.map (fun b => b.resolved)) = [true, true] :=
  ⟨rfl, rfl, rfl⟩

/-- C6 counterexample: with two peers that both signal EOSE (at t = 1 and
t = 2) and never match, every branch is drained by t = 2 (both subscriptions
closed, `completedRelays = 2`), yet at t = 3 the query has not resolved —
refuting "the query resolves to NotFound at that moment". -/
theorem C6_counterexample :
    (simUpTo fp0 (some recipient0) scriptsC6 3).1.completedRelays = 2 ∧
    ((simUpTo fp0 (some recipient0) scriptsC6 3).2.map (fun b => b.subOpen)) = [false, false] ∧
    (simUpTo fp0 (some recipient0) scriptsC6 3).1.overall = none :=
  ⟨rfl, rfl, rfl⟩

/-- C6 (amended): EOSE closes the branch's subscription and counts it
completed, but only a branch whose EOSE finds all relays completed (or a
receipt already stored) resolves its promise at that moment — here the
branch drained at t = 1 resolves only at its per-peer timeout t = 5, and the
query resolves to NotFound at t = 5, not at t = 2 when all branches drained. -/
theorem C6_drained_resolution :
    ((simUpTo fp0 (some recipient0) scriptsC6 3).2.map (fun b => b.resolved)) = [false, true] ∧
    (simUpTo fp0 (some recipient0) scriptsC6 12).1.overall = some (5, none) :=
  ⟨rfl, rfl⟩

/-- C5 counterexample: a single peer connects at t = 0 and signals EOSE at
t = 1; the query resolves to NotFound at t = 1, yet long after resolution the
relay connection is still open — `fetchZapReceiptForInvoice` closes
subscriptions (`sub.close()`) but never calls `relay.close()`. -/
theorem C5_counterexample :
    (simUpTo fp0 (some recipient0) scriptsC5 12).1.overall = some (1, none) ∧
    ((simUpTo fp0 (some recipient0) scriptsC5 12).2.map (fun b => b.connOpen)) = [true] :=
  ⟨rfl, rfl⟩

/-- C5 (amended): no handler of the query ever closes a relay connection — a
connection once opened stays open for the whole simulation — and a
subscription is closed only by its own branch's handlers, which can happen
after the query has already resolved: with a peer connecting at t = 7, the
query resolves at the overall timeout t = 10 while the subscription is still
open, and the subscription closes only at the branch's own timeout t = 12. -/
theorem C5_no_connection_close :
    (∀ invoice recipient scripts n m i b,
      n ≤ m → (simUpTo invoice recipient scripts n).2.get? i = some b →
      b.connOpen = true →
      ∃ b2, (simUpTo invoice recipient scripts m).2.get? i = some b2 ∧ b2.connOpen = true) ∧
    (simUpTo fp0 none scriptsC5b 11).1.overall = some (10, none) ∧
    ((simUpTo fp0 none scriptsC5b 11).2.map (fun b => b.subOpen)) = [true] ∧
    ((simUpTo fp0 none scriptsC5b 13).2.map (fun b => b.subOpen)) = [false] := by
  refine ⟨?_, rfl, rfl, rfl⟩
  intro invoice recipient scripts n m i b hnm hb hc
  exact simUpTo_branch_pres invoice recipient scripts (fun b => b.connOpen = true)
    (fun t g sc b hb => branchStep_connOpen_mono invoice recipient scripts.length t g sc b hb)
    n m i b hnm hb hc

/-- C5 witness: the connection opened at t = 0 in the one-peer scenario is
still open at t = 12, long after the query resolved at t = 1. -/
theorem C5_witness :
    ((simUpTo fp0 (some recipient0) scriptsC5 1).2.get? 0 =
      some { connOpen := true, subOpen := true, resolved := false,
             filter := some (mkZapFilter (some recipient0)) }) ∧
    ∃ b2, (simUpTo fp0 (some recipient0) scriptsC5 12).2.get? 0 = some b2 ∧
      b2.connOpen = true :=
  ⟨rfl,
   C5_no_connection_close.1 fp0 (some recipient0) scriptsC5 1 12 0
     { connOpen := true, subOpen := true, resolved := false,
       filter := some (mkZapFilter (some recipient0)) }
     (by decide) rfl rfl⟩

/-- C8 counterexample: an empty peer list does not fail fast with an error —
`Promise.all([])` resolves immediately, so the query resolves at t = 0 to
NotFound as a normal value.  The promise executor only ever calls `resolve`
(each branch's errors are caught, and the `Promise.all` catch also resolves),
so no input makes the query raise. -/
theorem C8_counterexample :
    fetchZapReceiptForInvoice fp0 (some recipient0) [] = some (0, none) := rfl

/-- C8 (amended): the query never raises a caller-facing error.  An empty
peer list resolves immediately (t = 0) to NotFound as a normal value, and a
branch connection failure is absorbed: the failed branch settles and the
query resolves to NotFound normally. -/
theorem C8_no_error_policy :
    (∀ invoice recipient, fetchZapReceiptForInvoice invoice recipient [] = some (0, none)) ∧
    (∀ invoice recipient,
      fetchZapReceiptForInvoice invoice recipient scriptsC8 = some (1, none)) := by
  constructor
  · intro invoice recipient
    show (simUpTo invoice recipient [] (simHorizon [])).1.overall = some (0, none)
    exact simUpTo_overall_mono invoice recipient [] 1 (simHorizon []) (0, none)
      (by decide) rfl
  · intro invoice recipient
    show (simUpTo invoice recipient scriptsC8 (simHorizon scriptsC8)).1.overall = some (1, none)
    exact simUpTo_overall_mono invoice recipient scriptsC8 2 (simHorizon scriptsC8) (1, none)
      (by decide) rfl

/-- With peers that deliver no events, the stored receipt stays `none`
forever. -/
theorem simUpTo_receipt_none (invoice : String) (recipient : Option String)
    (scripts : List RelayScript) (hev : ∀ sc ∈ scripts, sc.events = []) :
    ∀ n, (simUpTo invoice recipient scripts n).1.zapReceipt = none := by
  intro n
  induction n with
  | zero => rfl
  | succ n ih =>
    rw [simUpTo_succ, stepTime_receipt_nil invoice recipient scripts n _ hev]
    exact ih

/-- With no stored receipt, the resolution steps of a time unit either leave
the outer promise as it was, or resolve a pending promise with NotFound at
the current time. -/
theorem resolveSteps_cases (t : Nat) (g : Global) (bs : List BranchState)
    (hrec : g.zapReceipt = none) :
    (overallTimeoutStep t (promiseAllStep t g bs)).overall = g.overall ∨
    (g.overall = none ∧
      (overallTimeoutStep t (promiseAllStep t g bs)).overall = some (t, none)) := by
  unfold promiseAllStep
  by_cases h1 : (g.overall.isNone && bs.all (fun b => b.resolved)) = true
  · rw [if_pos h1]
    right
    refine ⟨Option.isNone_iff_eq_none.mp (Bool.and_eq_true _ _ |>.mp h1).1, ?_⟩
    unfold overallTimeoutStep
    simp [hrec]
  · rw [if_neg h1]
    unfold overallTimeoutStep
    by_cases h2 : (decide (t = overallTimeout) && g.zapReceipt.isNone && g.overall.isNone) = true
    · rw [if_pos h2]
      exact Or.inr ⟨Option.isNone_iff_eq_none.mp (Bool.and_eq_true _ _ |>.mp h2).2, rfl⟩
    · rw [if_neg h2]
      exact Or.inl rfl

/-- At the overall-timeout instant, a pending promise with no stored receipt
resolves with NotFound. -/
theorem resolveSteps_at_timeout (g : Global) (bs : List BranchState)
    (hrec : g.zapReceipt = none) (hov : g.overall = none) :
    (overallTimeoutStep overallTimeout (promiseAllStep overallTimeout g bs)).overall =
      some (overallTimeout, none) := by
  unfold promiseAllStep
  by_cases h1 : (g.overall.isNone && bs.all (fun b => b.resolved)) = true
  · rw [if_pos h1]
    unfold overallTimeoutStep
    simp [hrec]
  · rw [if_neg h1]
    unfold overallTimeoutStep
    simp [hrec, hov]

/-- With peers that deliver no events, one simulation step either leaves the
outer promise as it was or resolves it with NotFound at the current time. -/
theorem stepTime_overall_nil (invoice : String) (recipient : Option String)
    (scripts : List RelayScript) (t : Nat) (s : Global × List BranchState)
    (hev : ∀ sc ∈ scripts, sc.events = []) (hrec : s.1.zapReceipt = none) :
    (stepTime invoice recipient scripts t s).1.overall = s.1.overall ∨
    (s.1.overall = none ∧
      (stepTime invoice recipient scripts t s).1.overall = some (t, none)) := by
  unfold stepTime stepResolve
  have hg1r :
      (runBranches invoice recipient scripts.length t (scripts.zip s.2) s.1).1.zapReceipt =
        none := by
    rw [runBranches_receipt_nil invoice recipient scripts.length t _ s.1
      (fun pr hpr => hev pr.1 (List.of_mem_zip hpr).1)]
    exact hrec
  have h := resolveSteps_cases t
    (runBranches invoice recipient scripts.length t (scripts.zip s.2) s.1).1
    (runBranches invoice recipient scripts.length t (scripts.zip s.2) s.1).2 hg1r
  rw [runBranches_overall] at h
  exact h

/-- With peers that deliver no events, the overall timer resolves a
still-pending query with NotFound at `overallTimeout`. -/
theorem stepTime_overall_at_timeout (invoice : String) (recipient : Option String)
    (scripts : List RelayScript) (s : Global × List BranchState)
    (hev : ∀ sc ∈ scripts, sc.events = []) (hrec : s.1.zapReceipt = none)
    (hov : s.1.overall = none) :
    (stepTime invoice recipient scripts overallTimeout s).1.overall =
      some (overallTimeout, none) := by
  unfold stepTime stepResolve
  apply resolveSteps_at_timeout
  · rw [runBranches_receipt_nil invoice recipient scripts.length overallTimeout _ s.1
      (fun pr hpr => hev pr.1 (List.of_mem_zip hpr).1)]
    exact hrec
  · rw [runBranches_overall]
    exact hov

/-- With peers that deliver no events, by every instant the query is either
still pending inside the overall-timeout window, or already resolved with
NotFound at some time within the window. -/
theorem simUpTo_overall_bound (invoice : String) (recipient : Option String)
    (scripts : List RelayScript) (hev : ∀ sc ∈ scripts, sc.events = []) :
    ∀ n, ((simUpTo invoice recipient scripts n).1.overall = none ∧ n ≤ overallTimeout) ∨
      (∃ t, t ≤ overallTimeout ∧
        (simUpTo invoice recipient scripts n).1.overall = some (t, none)) := by
  intro n
  induction n with
  | zero => exact Or.inl ⟨rfl, by decide⟩
  | succ n ih =>
    rcases ih with ⟨hnone, hn⟩ | ⟨t, ht, hsome⟩
    · by_cases hn10 : n = overallTimeout
      · right
        refine ⟨overallTimeout, le_refl _, ?_⟩
        rw [simUpTo_succ, hn10]
        exact stepTime_overall_at_timeout invoice recipient scripts _ hev
          (hn10 ▸ simUpTo_receipt_none invoice recipient scripts hev n) (hn10 ▸ hnone)
      · have hlt : n < overallTimeout := lt_of_le_of_ne hn hn10
        rw [simUpTo_succ]
        rcases stepTime_overall_nil invoice recipient scripts n _ hev
          (simUpTo_receipt_none invoice recipient scripts hev n) with heq | ⟨-, hset⟩
        · exact Or.inl ⟨by rw [heq]; exact hnone, hlt⟩
        · exact Or.inr ⟨n, le_of_lt hlt, hset⟩
    · right
      exact ⟨t, ht, by
        rw [simUpTo_succ]
        exact stepTime_overall_mono invoice recipient scripts n _ (t, none) hsome⟩

/-- C7: the numeric defaults are per-peer timeout 5, overall timeout 10 and a
per-peer result cap of 50, and a query against peers that never respond
(connections that hang, fail, or subscriptions that deliver nothing — no
events, no EOSE) resolves to NotFound at some time no later than the overall
timeout. -/
theorem C7_bounded_latency :
    perPeerTimeout = 5 ∧ overallTimeout = 10 ∧ (∀ r, (mkZapFilter r).limit = 50) ∧
    (∀ invoice recipient scripts,
      (∀ sc ∈ scripts, sc.events = [] ∧ sc.eose = none) →
      ∀ n, overallTimeout < n →
        ∃ t, t ≤ overallTimeout ∧
          (simUpTo invoice recipient scripts n).1.overall = some (t, none)) := by
  refine ⟨rfl, rfl, fun r => rfl, ?_⟩
  intro invoice recipient scripts h n hn
  have hev : ∀ sc ∈ scripts, sc.events = [] := fun sc hsc => (h sc hsc).1
  rcases simUpTo_overall_bound invoice recipient scripts hev n with ⟨-, hle⟩ | hgood
  · omega
  · exact hgood

/-- C7 witness: against a single peer whose connection hangs forever, the
query has resolved with NotFound within the overall timeout by t = 11. -/
theorem C7_witness :
    (∀ sc ∈ scriptsC7w, sc.events = [] ∧ sc.eose = none) ∧
    ∃ t, t ≤ overallTimeout ∧
      (simUpTo fp0 (some recipient0) scriptsC7w 11).1.overall = some (t, none) :=
  ⟨fun sc hsc => by
    simp only [scriptsC7w, List.mem_singleton] at hsc
    subst hsc
    exact ⟨rfl, rfl⟩,
   C7_bounded_latency.2.2.2 fp0 (some recipient0) scriptsC7w
     (fun sc hsc => by
       simp only [scriptsC7w, List.mem_singleton] at hsc
       subst hsc
       exact ⟨rfl, rfl⟩) 11 (by decide)⟩

/-- Looking up after `Map.set`: the set key maps to the new value, every other
key is unaffected. -/
theorem lookup_setEntry (k : String) (v : ZapReceiptInfo) :
    ∀ (m : List (String × ZapReceiptInfo)) (k2 : String),
      (setEntry m k v).lookup k2 = if k2 = k then some v else m.lookup k2 := by
  intro m
  induction m with
  | nil =>
    intro k2
    by_cases h : k2 = k
    · simp [setEntry, List.lookup, h]
    · have hb : (k2 == k) = false := beq_eq_false_iff_ne.mpr h
      simp [setEntry, List.lookup, h, hb]
  | cons p t ih =>
    intro k2
    obtain ⟨a, w⟩ := p
    by_cases hak : a = k
    · subst hak
      by_cases h2 : k2 = a
      · have hb : (k2 == a) = true := beq_iff_eq.mpr h2
        simp [setEntry, List.lookup, h2, hb]
      · have hb : (k2 == a) = false := beq_eq_false_iff_ne.mpr h2
        simp [setEntry, List.lookup, h2, hb]
    · by_cases h2 : k2 = a
      · have hkk : ¬k2 = k := by rw [h2]; exact hak
        have hb : (k2 == a) = true := beq_iff_eq.mpr h2
        simp [setEntry, List.lookup, hak, hkk, hb]
      · have hb : (k2 == a) = false := beq_eq_false_iff_ne.mpr h2
        simp [setEntry, List.lookup, hak, hb, ih k2]

/-- Looking up in the batch-results map built by the fold: a key is bound
exactly when it occurs in the processed list and its query yielded a receipt,
and then it is bound to that receipt. -/
theorem lookup_batchFold (q : String → Option (Option ZapReceiptInfo)) :
    ∀ (l : List String) (acc : List (String × ZapReceiptInfo)) (k : String),
      (l.foldl (fun acc2 inv =>
        match q inv with
        | some (some r) => setEntry acc2 inv r
        | _ => acc2) acc).lookup k =
      if k ∈ l ∧ ((q k).bind id).isSome = true then (q k).bind id else acc.lookup k := by
  intro l
  induction l with
  | nil => intro acc k; simp
  | cons inv rest ih =>
    intro acc k
    rw [List.foldl_cons, ih]
    by_cases hmem : k ∈ rest ∧ ((q k).bind id).isSome = true
    · rw [if_pos hmem, if_pos ⟨List.mem_cons_of_mem _ hmem.1, hmem.2⟩]
    · rw [if_neg hmem]
      by_cases hkinv : k = inv
      · subst hkinv
        cases hq : q k with
        | none => simp [hq]
        | some o =>
          cases o with
          | none => simp [hq]
          | some r =>
            simp only [hq]
            rw [lookup_setEntry, if_pos rfl,
              if_pos ⟨List.mem_cons_self _ _, by simp⟩]
            rfl
      · have hcond : ¬(k ∈ inv :: rest ∧ ((q k).bind id).isSome = true) := by
          rintro ⟨hm, hs⟩
          rcases List.mem_cons.mp hm with h | h
          · exact hkinv h
          · exact hmem ⟨h, hs⟩
        rw [if_neg hcond]
        cases hq : q inv with
        | none => rfl
        | some o =>
          cases o with
          | none => rfl
          | some r =>
            simp only [hq]
            rw [lookup_setEntry, if_neg hkinv]

/-- Every branch's recorded filter is either unset (not yet subscribed) or
exactly the query's filter — after one step, given it held before. -/
theorem stepTime_filter_inv (invoice : String) (recipient : Option String)
    (scripts : List RelayScript) (t : Nat) (s : Global × List BranchState)
    (hlen : s.2.length = scripts.length)
    (hprev : ∀ i b, s.2.get? i = some b →
      b.filter = none ∨ b.filter = some (mkZapFilter recipient)) :
    ∀ i b, (stepTime invoice recipient scripts t s).2.get? i = some b →
      b.filter = none ∨ b.filter = some (mkZapFilter recipient) := by
  intro i b hb
  have hi : i < scripts.length := by
    have h1 : i < (stepTime invoice recipient scripts t s).2.length :=
      (List.get?_eq_some.mp hb).1
    rw [show (stepTime invoice recipient scripts t s).2 =

        (runBranches invoice recipient scripts.length t (scripts.zip s.2) s.1).2 from rfl,
      runBranches_length, List.length_zip, hlen, Nat.min_self] at h1
    exact h1
  have hbi : i < s.2.length := by rw [hlen]; exact hi
  have hsc : scripts.get? i = some (scripts.get ⟨i, hi⟩) := List.get?_eq_get hi
  have hb0 : s.2.get? i = some (s.2.get ⟨i, hbi⟩) := List.get?_eq_get hbi
  have hz := zip_get?_some scripts s.2 i _ _ hsc hb0
  obtain ⟨g2, hg⟩ := runBranches_get invoice recipient scripts.length t _ s.1 i _ _ hz
  have hb2 : (stepTime invoice recipient scripts t s).2.get? i =
      some ((branchStep invoice recipient scripts.length t g2 (scripts.get ⟨i, hi⟩)
        (s.2.get ⟨i, hbi⟩)).2) := hg
  rw [hb2] at hb
  injection hb with hEq
  subst hEq
  rcases branchStep_filter invoice recipient scripts.length t g2 (scripts.get ⟨i, hi⟩)
    (s.2.get ⟨i, hbi⟩) with hf | hf
  · rw [hf]
    exact hprev i _ hb0
  · right
    exact hf

/-- Every branch's recorded filter over the whole simulation is either unset
or exactly the query's filter. -/
theorem simUpTo_filter_inv (invoice : String) (recipient : Option String)
    (scripts : List RelayScript) :
    ∀ n i b, (simUpTo invoice recipient scripts n).2.get? i = some b →
      b.filter = none ∨ b.filter = some (mkZapFilter recipient) := by
  intro n
  induction n with
  | zero =>
    intro i b hb
    simp only [simUpTo, List.range_zero, List.foldl_nil, List.get?_map] at hb
    cases hsc : scripts.get? i with
    | none => rw [hsc] at hb; simp at hb
    | some sc =>
      rw [hsc] at hb
      simp only [Option.map_some'] at hb
      injection hb with hEq
      subst hEq
      left
      rfl
  | succ n ih =>
    intro i b hb
    rw [simUpTo_succ] at hb
    exact stepTime_filter_inv invoice recipient scripts n _
      (simUpTo_length invoice recipient scripts n) ih i b hb

/-- C10: the batch operation queries each invoice with the recipient argument
absent (`none`, the embedding of the missing `recipientPubkey` argument), so
every subscription filter recorded during a batch query carries `pTag = none`
(`'#p': [undefined]`), and the returned mapping binds an invoice exactly when
its recipient-less query resolved with a match, to that match. -/
theorem C10_batch_drops_recipient :
    (∀ invoices env m inv r,
      fetchZapReceiptsForInvoices invoices env = some m →
      (m.lookup inv = some r ↔
        inv ∈ invoices ∧ queryResult inv none (env inv) = some (some r))) ∧
    (∀ invoice scripts n i b,
      (simUpTo invoice none scripts n).2.get? i = some b →
      b.filter = none ∨ b.filter = some { kinds := [9735], pTag := none, limit := 50 }) := by
  constructor
  · intro invoices env m inv r hm
    unfold fetchZapReceiptsForInvoices at hm
    split at hm
    · injection hm with hEq
      subst hEq
      rw [lookup_batchFold (fun inv2 => queryResult inv2 none (env inv2)) invoices [] inv]
      by_cases hcond : inv ∈ invoices ∧
          ((queryResult inv none (env inv)).bind id).isSome = true
      · rw [if_pos hcond]
        constructor
        · intro hlook
          refine ⟨hcond.1, ?_⟩
          rcases hq : queryResult inv none (env inv) with _ | o
          · rw [hq] at hlook; simp at hlook
          · cases o with
            | none => rw [hq] at hlook; simp at hlook
            | some r2 =>
              rw [hq] at hlook
              simp at hlook
              rw [hlook]
        · rintro ⟨-, hq⟩
          rw [hq]
          rfl
      · rw [if_neg hcond]
        constructor
        · intro hlook
          simp [List.lookup] at hlook
        · rintro ⟨hmem, hq⟩
          exact absurd ⟨hmem, by rw [hq]; rfl⟩ hcond
    · exact absurd hm (by simp)
  · intro invoice scripts n i b hb
    exact simUpTo_filter_inv invoice none scripts n i b hb

/-- C10 witness: a one-invoice batch against a relay that delivers the
relay-1 fixture resolves, and its mapping binds the invoice exactly as the
recipient-less query result dictates. -/
theorem C10_witness :
    fetchZapReceiptsForInvoices [fp0] envC10 = some [(fp0, resultRelay1)] ∧
    ([(fp0, resultRelay1)].lookup fp0 = some resultRelay1 ↔
      fp0 ∈ [fp0] ∧ queryResult fp0 none (envC10 fp0) = some (some resultRelay1)) :=
  ⟨rfl, C10_batch_drops_recipient.1 [fp0] envC10 [(fp0, resultRelay1)] fp0 resultRelay1 rfl⟩
